import Mathlib

/-!
Verification development for the orbital conjunction screening engine
(src/processors/conjunction_detector.py and src/processors/orbit_propagator.py).

Modelling conventions of the shallow embedding:

* Python floats are idealised as exact rationals (`ℚ`).  Absolute times are
  rationals measured in minutes from an arbitrary origin; `datetime.utcnow()`
  becomes an explicit `now` parameter.
* The external SGP4 library (`Satrec.twoline2rv` followed by `satellite.sgp4`)
  is outside this repository; a satellite record therefore carries an abstract
  propagation function `sgp4 : ℚ → Except Unit (ℤ × Vec3 × Vec3)` returning the
  sgp4 triple `(error, position, velocity)`.  `Except.error` models a Python
  exception escaping the library call; two records built from identical orbital
  elements have the same `sgp4` function.
* `numpy.sqrt` applied to a nonnegative rational is irrational in general, so
  the exact value `sqrt radicand + offset` is represented symbolically by the
  structure `SqrtOff`; comparisons against rationals and Python `round` applied
  to such a value are computed exactly by comparing squares (`sqrtAddLtB`,
  `pyRoundSqrt`).  Python `round` uses round-half-to-even, which `pyRoundSqrt`
  implements.
* Python `int(x)` truncates toward zero (`pyInt`), and division by zero raises
  (`pyDivSteps` returns `Except.error ()` exactly when the divisor is `0`);
  every function whose Python source can raise returns in the `Except Unit`
  monad.
* Python `for` loops that append to lists become `List.flatMap` /
  `List.filterMap`; `list.sort(key=...)` is a stable sort, embedded as
  `List.insertionSort` with the non-strict key comparison, which is stable.
-/

namespace SpaceDebbie

/-- Exact representation of the real number `Real.sqrt radicand + offset`
(for a nonnegative radicand); used for the values produced by `numpy.sqrt`
in the source, which are irrational in general. -/
structure SqrtOff where
  radicand : ℚ
  offset : ℚ
deriving DecidableEq

/-- Decides `sqrt s + c < q` for `0 ≤ s`, by comparing squares. -/
def sqrtAddLtB (s c q : ℚ) : Bool :=
  decide (0 ≤ q - c) && decide (s < (q - c) ^ 2)

/-- Decides `sqrt s + c = q` for `0 ≤ s`, by comparing squares. -/
def sqrtAddEqB (s c q : ℚ) : Bool :=
  decide (0 ≤ q - c) && decide (s = (q - c) ^ 2)

/-- Floor of the square root of a nonnegative rational: the integer square
root of the floor (valid because an integer bound `k ^ 2 ≤ q` is equivalent
to `k ^ 2 ≤ ⌊q⌋`). -/
def floorSqrtQ (q : ℚ) : ℕ := Nat.sqrt ⌊q⌋.toNat

/-- Floor of `sqrt s + c` for `0 ≤ s`.  The value lies in the window
`[⌊sqrt s⌋ + ⌊c⌋, ⌊sqrt s⌋ + ⌊c⌋ + 2)`, so one exact comparison decides it. -/
def floorSqrtAdd (s c : ℚ) : ℤ :=
  let m0 : ℤ := (floorSqrtQ s : ℤ) + ⌊c⌋
  if sqrtAddLtB s c ((m0 : ℚ) + 1) then m0 else m0 + 1

/-- Round `sqrt S + C` (with `0 ≤ S`) to the nearest integer, halves to even:
the rounding mode of Python `round`. -/
def roundHalfEvenSqrtAdd (S C : ℚ) : ℤ :=
  let m := floorSqrtAdd S C
  if sqrtAddLtB S C ((m : ℚ) + 1 / 2) then m
  else if sqrtAddEqB S C ((m : ℚ) + 1 / 2) then (if m % 2 = 0 then m else m + 1)
  else m + 1

/-- Python `round(sqrt s + c, ndigits)`: scale by `10 ^ ndigits`, round
half-to-even, scale back.  Computed exactly on the symbolic value. -/
def pyRoundSqrt (v : SqrtOff) (ndigits : ℕ) : ℚ :=
  (roundHalfEvenSqrtAdd (((10 : ℚ) ^ ndigits) ^ 2 * v.radicand)
    ((10 : ℚ) ^ ndigits * v.offset) : ℚ) / (10 : ℚ) ^ ndigits

/-- The Python comparison `value < q` for a `SqrtOff` value. -/
def sqrtOffLt (v : SqrtOff) (q : ℚ) : Bool := sqrtAddLtB v.radicand v.offset q

/-- Python `int(q)`: truncation toward zero. -/
def pyInt (q : ℚ) : ℤ := if 0 ≤ q then ⌊q⌋ else ⌈q⌉

/-- Python `int(num / den)`: raises `ZeroDivisionError` when `den = 0`. -/
def pyDivSteps (num den : ℚ) : Except Unit ℤ :=
  if den = 0 then Except.error () else Except.ok (pyInt (num / den))

/-- Inertial-frame position or velocity vector, km (components exact). -/
structure Vec3 where
  x : ℚ
  y : ℚ
  z : ℚ
deriving DecidableEq

/-- One tracked object: the `tle_data` record of the source.  The two TLE
lines only ever flow into the external SGP4 library, so the record carries
the resulting propagation function directly (see the module docstring). -/
structure Satellite where
  name : String
  catalog : Option String
  sgp4 : ℚ → Except Unit (ℤ × Vec3 × Vec3)

/-- orbit_propagator.py: EARTH_RADIUS_KM = 6371.0 -/
def EARTH_RADIUS_KM : ℚ := 6371

/-- Result dictionary of `get_current_position` (orbit_propagator.py). -/
structure PositionData where
  position : Vec3
  velocity : Vec3
  altitude_km : SqrtOff
  time : ℚ

/-- orbit_propagator.py, `get_current_position`: run sgp4 at the requested
time; on error code 0 return position, velocity and altitude
`sqrt (x^2+y^2+z^2) - EARTH_RADIUS_KM`, otherwise `None`.  An exception from
the library escapes (there is no handler in this function). -/
def get_current_position (tle_data : Satellite) (at_time : ℚ) :
    Except Unit (Option PositionData) := do
  let (error, p, velocity) ← tle_data.sgp4 at_time
  if error = 0 then
    pure (some { position := p, velocity := velocity,
                 altitude_km := ⟨p.x ^ 2 + p.y ^ 2 + p.z ^ 2, -EARTH_RADIUS_KM⟩,
                 time := at_time })
  else
    pure none

/-- Result dictionary of `propagate_satellite` (orbit_propagator.py). -/
structure Trajectory where
  name : String
  catalog : String
  positions : List Vec3
  times : List ℚ
deriving DecidableEq

/-- orbit_propagator.py, `propagate_satellite`: `steps = int((duration_hours *
60) / step_minutes)`; for each step propagate at `start_time + i *
step_minutes` and keep position and time when the error code is 0.  A raised
exception (zero step divisor, or one escaping sgp4) propagates out. -/
def propagate_satellite (tle_data : Satellite) (start_time : ℚ)
    (duration_hours step_minutes : ℚ) : Except Unit Trajectory := do
  let steps ← pyDivSteps (duration_hours * 60) step_minutes
  let samples ← (List.range steps.toNat).mapM (fun (i : ℕ) => do
    let current_time := start_time + (i : ℚ) * step_minutes
    let (error, p, _v) ← tle_data.sgp4 current_time
    pure (if error = 0 then some (p, current_time) else none))
  pure { name := tle_data.name, catalog := tle_data.catalog.getD "unknown",
         positions := (samples.filterMap id).map Prod.fst,
         times := (samples.filterMap id).map Prod.snd }

/-- conjunction_detector.py, `calculate_distance`: Euclidean distance between
two positions, `sqrt (Σ (a - b)^2)`, kept as an exact `SqrtOff` value. -/
def calculate_distance (pos1 pos2 : Vec3) : SqrtOff :=
  ⟨(pos1.x - pos2.x) ^ 2 + (pos1.y - pos2.y) ^ 2 + (pos1.z - pos2.z) ^ 2, 0⟩

/-- The event dictionary appended by `find_conjunctions`. -/
structure Conjunction where
  object1 : String
  object2 : String
  distance_km : ℚ
  time : ℚ
  time_from_now : ℚ
  altitude1_km : ℚ
  altitude2_km : ℚ
deriving DecidableEq

/-- The entry appended to the per-step `positions` list in
`find_conjunctions`. -/
structure PosEntry where
  name : String
  catalog : String
  position : Vec3
  altitude_km : SqrtOff
  time : ℚ

/-- The per-step satellite loop of `find_conjunctions`: query every record at
the current time; a raised exception (`except: continue`) or a `None` result
contributes nothing. -/
def stepPositions (satellites : List Satellite) (current_time : ℚ) :
    List PosEntry :=
  satellites.filterMap (fun sat =>
    match get_current_position sat current_time with
    | Except.error _ => none
    | Except.ok none => none
    | Except.ok (some pd) =>
        some { name := sat.name, catalog := sat.catalog.getD "unknown",
               position := pd.position, altitude_km := pd.altitude_km,
               time := current_time })

/-- Index pairs visited by the nested loops `for i in range(n): for j in
range(i + 1, n)`. -/
def pairsIdx (n : ℕ) : List (ℕ × ℕ) :=
  (List.range n).flatMap (fun i =>
    (List.range' (i + 1) (n - (i + 1))).map (fun j => (i, j)))

/-- The event built for one qualifying pair in `find_conjunctions`. -/
def mkConjunction (start_time current_time : ℚ) (pa pb : PosEntry) :
    Conjunction :=
  { object1 := pa.name, object2 := pb.name,
    distance_km := pyRoundSqrt (calculate_distance pa.position pb.position) 2,
    time := current_time,
    time_from_now := current_time - start_time,
    altitude1_km := pyRoundSqrt pa.altitude_km 1,
    altitude2_km := pyRoundSqrt pb.altitude_km 1 }

/-- The pairwise loop of `find_conjunctions` at one time step: every index
pair `i < j` whose distance is strictly below the threshold yields one event
with the distance rounded to 2 decimals and the altitudes to 1 decimal. -/
def stepConjunctions (threshold_km start_time current_time : ℚ)
    (positions : List PosEntry) : List Conjunction :=
  (pairsIdx positions.length).filterMap (fun ij =>
    match positions[ij.1]?, positions[ij.2]? with
    | some pa, some pb =>
        if sqrtOffLt (calculate_distance pa.position pb.position) threshold_km
        then some (mkConjunction start_time current_time pa pb)
        else none
    | _, _ => none)

/-- Sort key relation used by `conjunctions.sort(key=lambda x:
x['distance_km'])`; Python list sort is stable, and `List.insertionSort`
with this non-strict comparison is the stable sort by that key. -/
def byDistance (a b : Conjunction) : Prop := a.distance_km ≤ b.distance_km

instance : DecidableRel byDistance := fun a b =>
  inferInstanceAs (Decidable (a.distance_km ≤ b.distance_km))

instance : IsTotal Conjunction byDistance :=
  ⟨fun a b => le_total a.distance_km b.distance_km⟩

instance : IsTrans Conjunction byDistance :=
  ⟨fun _ _ _ hab hbc => le_trans hab hbc⟩

/-- The outer time loop of `find_conjunctions`: events from all steps, in
generation order (ascending step, then ascending index pair). -/
def scanConjunctions (satellites : List Satellite) (now threshold_km step_minutes : ℚ)
    (steps : ℕ) : List Conjunction :=
  (List.range steps).flatMap (fun (step : ℕ) =>
    let current_time := now + (step : ℚ) * step_minutes
    stepConjunctions threshold_km now current_time
      (stepPositions satellites current_time))

/-- conjunction_detector.py, `find_conjunctions`: `start_time =
datetime.utcnow()` becomes the explicit parameter `now`; `steps =
int((duration_hours * 60) / step_minutes)` (raising on a zero step); at each
step all pairs of successfully propagated objects closer than the threshold
are recorded; finally the list is sorted (stably) by the stored rounded
distance. -/
def find_conjunctions (satellites : List Satellite) (now : ℚ)
    (threshold_km duration_hours step_minutes : ℚ) :
    Except Unit (List Conjunction) := do
  let steps ← pyDivSteps (duration_hours * 60) step_minutes
  pure (List.insertionSort byDistance
    (scanConjunctions satellites now threshold_km step_minutes steps.toNat))

/-- The time grid both `propagate_satellite` and `find_conjunctions` build:
`int((duration_hours * 60) / step_minutes)` evenly spaced times starting at
`start_time`. -/
def gridTimes (start_time duration_hours step_minutes : ℚ) :
    Except Unit (List ℚ) := do
  let steps ← pyDivSteps (duration_hours * 60) step_minutes
  pure ((List.range steps.toNat).map (fun (i : ℕ) => start_time + (i : ℚ) * step_minutes))

/-- conjunction_detector.py, `assess_collision_risk`. -/
def assess_collision_risk (distance_km : ℚ) : String × ℕ × String :=
  if distance_km < 1 then ("CRITICAL", 95, "Immediate collision risk")
  else if distance_km < 5 then ("HIGH", 80, "Very close approach - high risk")
  else if distance_km < 10 then ("ELEVATED", 60, "Close approach - monitor closely")
  else if distance_km < 25 then ("MODERATE", 40, "Notable approach")
  else if distance_km < 50 then ("LOW", 20, "Distant approach")
  else ("MINIMAL", 5, "Safe distance")

/-! Correctness of the exact square-root arithmetic. -/

theorem floorSqrtQ_sq_le {q : ℚ} (hq : 0 ≤ q) : (floorSqrtQ q : ℚ) ^ 2 ≤ q := by
  have h1 : (Nat.sqrt ⌊q⌋.toNat) ^ 2 ≤ ⌊q⌋.toNat := Nat.sqrt_le' _
  have h2 : ((⌊q⌋.toNat : ℤ) : ℚ) = ((⌊q⌋ : ℤ) : ℚ) := by
    rw [Int.toNat_of_nonneg (Int.floor_nonneg.mpr hq)]
  have h3 : ((⌊q⌋ : ℤ) : ℚ) ≤ q := Int.floor_le q
  calc (floorSqrtQ q : ℚ) ^ 2 ≤ ((⌊q⌋.toNat : ℕ) : ℚ) := by
        unfold floorSqrtQ
        exact_mod_cast Nat.cast_le.mpr h1
    _ = ((⌊q⌋ : ℤ) : ℚ) := by push_cast at h2 ⊢; exact h2
    _ ≤ q := h3

theorem lt_floorSqrtQ_succ_sq {q : ℚ} (hq : 0 ≤ q) :
    q < ((floorSqrtQ q : ℚ) + 1) ^ 2 := by
  have h1 : ⌊q⌋.toNat < (Nat.sqrt ⌊q⌋.toNat + 1) ^ 2 := by
    simpa [Nat.succ_eq_add_one] using Nat.lt_succ_sqrt' ⌊q⌋.toNat
  have h2 : ((⌊q⌋.toNat : ℤ) : ℚ) = ((⌊q⌋ : ℤ) : ℚ) := by
    rw [Int.toNat_of_nonneg (Int.floor_nonneg.mpr hq)]
  have h4 : q < ((⌊q⌋ : ℤ) : ℚ) + 1 := Int.lt_floor_add_one q
  have h5 : ((⌊q⌋ : ℤ) : ℚ) + 1 ≤ ((floorSqrtQ q : ℚ) + 1) ^ 2 := by
    have : (⌊q⌋.toNat : ℚ) + 1 ≤ ((Nat.sqrt ⌊q⌋.toNat : ℚ) + 1) ^ 2 := by
      have := (@Nat.cast_le ℚ _ _ _).mpr (Nat.succ_le_of_lt h1)
      push_cast at this ⊢
      linarith
    unfold floorSqrtQ
    push_cast at h2 this ⊢
    linarith
  linarith

theorem sqrtAddLtB_iff {s c q : ℚ} :
    sqrtAddLtB s c q = true ↔ 0 ≤ q - c ∧ s < (q - c) ^ 2 := by
  simp [sqrtAddLtB]

theorem sqrtAddEqB_iff {s c q : ℚ} :
    sqrtAddEqB s c q = true ↔ 0 ≤ q - c ∧ s = (q - c) ^ 2 := by
  simp [sqrtAddEqB]

/-- The computed `floorSqrtAdd S C` is a correct floor of `sqrt S + C`,
expressed without square roots: `sqrt S + C` is at least the result (first
conjunct) and strictly below the result plus one (second conjunct). -/
theorem floorSqrtAdd_spec {S C : ℚ} (hS : 0 ≤ S) :
    (((floorSqrtAdd S C : ℚ) - C ≤ 0) ∨ ((floorSqrtAdd S C : ℚ) - C) ^ 2 ≤ S) ∧
      (0 ≤ (floorSqrtAdd S C : ℚ) + 1 - C ∧ S < ((floorSqrtAdd S C : ℚ) + 1 - C) ^ 2) := by
  have hF1 : (floorSqrtQ S : ℚ) ^ 2 ≤ S := floorSqrtQ_sq_le hS
  have hF2 : S < ((floorSqrtQ S : ℚ) + 1) ^ 2 := lt_floorSqrtQ_succ_sq hS
  have hCf : ((⌊C⌋ : ℤ) : ℚ) ≤ C := Int.floor_le C
  have hCc : C < ((⌊C⌋ : ℤ) : ℚ) + 1 := Int.lt_floor_add_one C
  unfold floorSqrtAdd
  set m0 : ℤ := (floorSqrtQ S : ℤ) + ⌊C⌋ with hm0
  have hm0q : (m0 : ℚ) = (floorSqrtQ S : ℚ) + ((⌊C⌋ : ℤ) : ℚ) := by
    rw [hm0]; push_cast; ring
  by_cases hb : sqrtAddLtB S C ((m0 : ℚ) + 1) = true
  · rw [if_pos hb]
    obtain ⟨hge, hlt⟩ := sqrtAddLtB_iff.mp hb
    refine ⟨?_, by constructor <;> [linarith; linarith]⟩
    by_cases hz : (m0 : ℚ) - C ≤ 0
    · exact Or.inl hz
    · refine Or.inr ?_
      have h1 : (m0 : ℚ) - C ≤ (floorSqrtQ S : ℚ) := by rw [hm0q]; linarith
      nlinarith [hF1, h1, not_le.mp hz]
  · rw [if_neg hb]
    have hnb := hb
    rw [sqrtAddLtB_iff] at hnb
    push_neg at hnb
    constructor
    · by_cases hz : ((m0 : ℚ) + 1) - C ≤ 0
      · exact Or.inl (by push_cast; linarith)
      · have hge : 0 ≤ (m0 : ℚ) + 1 - C := le_of_lt (not_le.mp hz)
        have hle := hnb hge
        exact Or.inr (by push_cast; linarith [hle])
    · constructor
      · push_cast
        rw [hm0q]
        have : (0 : ℚ) ≤ (floorSqrtQ S : ℚ) := by positivity
        linarith
      · have h1 : (floorSqrtQ S : ℚ) + 1 ≤ (m0 : ℚ) + 2 - C := by
          rw [hm0q]; linarith
        have h2 : (0 : ℚ) ≤ (floorSqrtQ S : ℚ) + 1 := by positivity
        push_cast
        nlinarith [hF2, h1, h2]

/-- Uniqueness: any integer satisfying the floor characterisation of
`sqrt S + C` equals `floorSqrtAdd S C`. -/
theorem floorSqrtAdd_eq {S C : ℚ} {m : ℤ} (hS : 0 ≤ S)
    (h1 : ((m : ℚ) - C ≤ 0) ∨ ((m : ℚ) - C) ^ 2 ≤ S)
    (h2 : 0 ≤ (m : ℚ) + 1 - C) (h3 : S < ((m : ℚ) + 1 - C) ^ 2) :
    floorSqrtAdd S C = m := by
  obtain ⟨r1, r2, r3⟩ := @floorSqrtAdd_spec S C hS
  set r : ℤ := floorSqrtAdd S C with hr
  rcases lt_trichotomy r m with hlt | heq | hgt
  · exfalso
    have hrm : (r : ℚ) + 1 ≤ (m : ℚ) := by exact_mod_cast Int.add_one_le_iff.mpr hlt
    rcases h1 with hA | hB
    · have : (r : ℚ) + 1 - C ≤ 0 := by linarith
      have hz : (r : ℚ) + 1 - C = 0 := le_antisymm this r2
      rw [hz] at r3
      simp at r3
      linarith
    · nlinarith [r2, r3, hB, hrm]
  · exact heq
  · exfalso
    have hmr : (m : ℚ) + 1 ≤ (r : ℚ) := by exact_mod_cast Int.add_one_le_iff.mpr hgt
    rcases r1 with hA | hB
    · have : (m : ℚ) + 1 - C ≤ 0 := by linarith
      have hz : (m : ℚ) + 1 - C = 0 := le_antisymm this h2
      rw [hz] at h3
      simp at h3
      linarith
    · nlinarith [h2, h3, hB, hmr]

/-- When `sqrt (a ^ 2) + c` scaled by `10 ^ d` is exactly the integer `k`
(with `0 ≤ a`), Python rounding returns that exact value. -/
theorem pyRoundSqrt_exact {a c : ℚ} (d : ℕ) {k : ℤ} (ha : 0 ≤ a)
    (hk : (k : ℚ) = (10 : ℚ) ^ d * (a + c)) :
    pyRoundSqrt ⟨a ^ 2, c⟩ d = (k : ℚ) / (10 : ℚ) ^ d := by
  have hP : (0 : ℚ) < (10 : ℚ) ^ d := by positivity
  have hS : ((10 : ℚ) ^ d) ^ 2 * a ^ 2 = ((10 : ℚ) ^ d * a) ^ 2 := by ring
  have hSpos : (0 : ℚ) ≤ ((10 : ℚ) ^ d) ^ 2 * a ^ 2 := by positivity
  have hka : (k : ℚ) - (10 : ℚ) ^ d * c = (10 : ℚ) ^ d * a := by rw [hk]; ring
  have hfl : floorSqrtAdd (((10 : ℚ) ^ d) ^ 2 * a ^ 2) ((10 : ℚ) ^ d * c) = k := by
    refine floorSqrtAdd_eq hSpos (Or.inr ?_) ?_ ?_
    · rw [hka, hS]
    · have h0 : (0 : ℚ) ≤ (10 : ℚ) ^ d * a := mul_nonneg (le_of_lt hP) ha
      linarith [hka]
    · rw [hS]
      nlinarith [mul_nonneg (le_of_lt hP) ha, hka]
  unfold pyRoundSqrt roundHalfEvenSqrtAdd
  rw [hfl]
  have hlt : sqrtAddLtB (((10 : ℚ) ^ d) ^ 2 * a ^ 2) ((10 : ℚ) ^ d * c)
      ((k : ℚ) + 1 / 2) = true := by
    rw [sqrtAddLtB_iff]
    constructor
    · nlinarith [mul_nonneg (le_of_lt hP) ha, hka]
    · rw [hS]
      nlinarith [mul_nonneg (le_of_lt hP) ha, hka]
  simp only [hlt, if_pos]

/-- The half-even rounding of `sqrt S` (no offset) is below `T + 1/2`
whenever `S < T ^ 2` with `0 ≤ T`. -/
theorem roundHalfEvenSqrtAdd_zero_lt {S T : ℚ} (hS : 0 ≤ S) (hT : 0 ≤ T)
    (h : S < T ^ 2) : (roundHalfEvenSqrtAdd S 0 : ℚ) < T + 1 / 2 := by
  have hTpos : 0 < T := by nlinarith
  obtain ⟨r1, r2, r3⟩ := @floorSqrtAdd_spec S 0 hS
  set m : ℤ := floorSqrtAdd S 0 with hm
  have hmlt : (m : ℚ) < T := by
    rcases r1 with hA | hB
    · linarith
    · by_contra hcon
      push_neg at hcon
      nlinarith
  have hup : ¬ sqrtAddLtB S 0 ((m : ℚ) + 1 / 2) = true → (m : ℚ) + 1 < T + 1 / 2 := by
    intro hnb
    rw [sqrtAddLtB_iff] at hnb
    push_neg at hnb
    by_cases hz : 0 ≤ (m : ℚ) + 1 / 2 - 0
    · have hge := hnb hz
      nlinarith
    · push_neg at hz
      linarith
  unfold roundHalfEvenSqrtAdd
  rw [← hm]
  dsimp only
  split_ifs with hb1 hb2 hb3
  · linarith
  · linarith [hup hb1]
  · push_cast
    linarith [hup hb1]
  · push_cast
    linarith [hup hb1]

/-- Bound used for the screening threshold: if the squared true distance is
strictly below `t ^ 2` (with `0 ≤ t`), the stored 2-decimal rounding is
strictly below `t + 1/200`. -/
theorem pyRoundSqrt_two_lt {s t : ℚ} (hs : 0 ≤ s) (ht : 0 ≤ t) (h : s < t ^ 2) :
    pyRoundSqrt ⟨s, 0⟩ 2 < t + 1 / 200 := by
  unfold pyRoundSqrt
  have e1 : ((10 : ℚ) ^ 2) ^ 2 * (SqrtOff.mk s 0).radicand = 10000 * s := by
    norm_num
  have e2 : ((10 : ℚ) ^ 2) * (SqrtOff.mk s 0).offset = 0 := by norm_num
  rw [e1, e2]
  have hb := @roundHalfEvenSqrtAdd_zero_lt (10000 * s) (100 * t)
    (by positivity) (by positivity) (by nlinarith)
  rw [div_lt_iff₀ (by norm_num : (0 : ℚ) < (10 : ℚ) ^ 2)]
  nlinarith [hb]

/-! Structural lemmas about the screening pipeline. -/

theorem mem_pairsIdx {n i j : ℕ} : (i, j) ∈ pairsIdx n ↔ i < j ∧ j < n := by
  unfold pairsIdx
  simp only [List.mem_flatMap, List.mem_map, List.mem_range, List.mem_range'_1]
  constructor
  · rintro ⟨a, ha, b, ⟨hb1, hb2⟩, heq⟩
    rw [Prod.mk.injEq] at heq
    omega
  · rintro ⟨hij, hjn⟩
    exact ⟨i, by omega, j, ⟨by omega, by omega⟩, rfl⟩

theorem pairsIdx_nodup (n : ℕ) : (pairsIdx n).Nodup := by
  unfold pairsIdx
  rw [List.nodup_flatMap]
  constructor
  · intro i _
    exact (List.nodup_range' _ _).map (fun a b h => by
      simpa using congrArg Prod.snd h)
  · refine (List.sorted_lt_range n).imp ?_
    intro a b hab x hxa hxb
    simp only [List.mem_map] at hxa hxb
    obtain ⟨j1, _, e1⟩ := hxa
    obtain ⟨j2, _, e2⟩ := hxb
    rw [← e1, Prod.mk.injEq] at e2
    omega

theorem mem_stepConjunctions {thr st ct : ℚ} {ps : List PosEntry}
    {e : Conjunction} :
    e ∈ stepConjunctions thr st ct ps ↔
      ∃ (i j : ℕ) (pa pb : PosEntry),
        i < j ∧ ps[i]? = some pa ∧ ps[j]? = some pb ∧
        sqrtOffLt (calculate_distance pa.position pb.position) thr = true ∧
        e = mkConjunction st ct pa pb := by
  unfold stepConjunctions
  rw [List.mem_filterMap]
  constructor
  · rintro ⟨⟨i, j⟩, hmem, hfe⟩
    rw [mem_pairsIdx] at hmem
    cases hpi : ps[i]? with
    | none => rw [hpi] at hfe; simp at hfe
    | some pa =>
      cases hpj : ps[j]? with
      | none => rw [hpi, hpj] at hfe; simp at hfe
      | some pb =>
        rw [hpi, hpj] at hfe
        by_cases hd :
            sqrtOffLt (calculate_distance pa.position pb.position) thr = true
        · refine ⟨i, j, pa, pb, hmem.1, hpi, hpj, hd, ?_⟩
          simp only [hd, if_true, Option.some.injEq] at hfe
          exact hfe.symm
        · simp only [hd] at hfe
          simp at hfe
  · rintro ⟨i, j, pa, pb, hij, hpi, hpj, hd, rfl⟩
    have hjlen : j < ps.length := by
      obtain ⟨hlt, _⟩ := List.getElem?_eq_some_iff.mp hpj
      exact hlt
    refine ⟨(i, j), mem_pairsIdx.mpr ⟨hij, hjlen⟩, ?_⟩
    rw [hpi, hpj]
    simp [hd]

theorem mem_scanConjunctions {sats : List Satellite} {now thr step : ℚ}
    {n : ℕ} {e : Conjunction} :
    e ∈ scanConjunctions sats now thr step n ↔
      ∃ i : ℕ, i < n ∧
        e ∈ stepConjunctions thr now (now + (i : ℚ) * step)
            (stepPositions sats (now + (i : ℚ) * step)) := by
  unfold scanConjunctions
  simp only [List.mem_flatMap, List.mem_range]

theorem find_conjunctions_ok (sats : List Satellite) (now thr dur step : ℚ)
    (h : step ≠ 0) :
    find_conjunctions sats now thr dur step =
      Except.ok (List.insertionSort byDistance
        (scanConjunctions sats now thr step (pyInt (dur * 60 / step)).toNat)) := by
  unfold find_conjunctions pyDivSteps
  rw [if_neg h]
  rfl

theorem except_bind_ok {α β : Type} (a : α) (f : α → Except Unit β) :
    (Except.ok a >>= f) = f a := rfl

theorem mapM_ok_of_forall {α β : Type} (f : α → Except Unit β) (g : α → β)
    (l : List α) (h : ∀ a ∈ l, f a = Except.ok (g a)) :
    l.mapM f = Except.ok (l.map g) := by
  induction l with
  | nil => rfl
  | cons a l ih =>
    rw [List.mapM_cons, h a (by simp), ih (fun x hx => h x (by simp [hx]))]
    rfl

theorem stepPositions_append (l1 l2 : List Satellite) (t : ℚ) :
    stepPositions (l1 ++ l2) t = stepPositions l1 t ++ stepPositions l2 t := by
  unfold stepPositions
  exact List.filterMap_append _ _ _

theorem stepPositions_cons_fail {bad : Satellite}
    (hbad : ∀ t, get_current_position bad t = Except.error () ∨
      get_current_position bad t = Except.ok none)
    (l : List Satellite) (t : ℚ) :
    stepPositions (bad :: l) t = stepPositions l t := by
  unfold stepPositions
  rw [List.filterMap_cons]
  rcases hbad t with h | h <;> simp [h]

/-! Concrete records used by witnesses and counterexamples, plus evaluation
lemmas for small runs. -/

def demoV0 : Vec3 := ⟨0, 0, 0⟩

/-- A record that propagates successfully to the fixed position `p` at every
time. -/
def demoSgp4At (p : Vec3) : ℚ → Except Unit (ℤ × Vec3 × Vec3) :=
  fun _ => Except.ok (0, p, demoV0)

def demoA : Satellite := ⟨"SAT-A", some "station", demoSgp4At demoV0⟩

def demoB : Satellite := ⟨"SAT-B", none, demoSgp4At demoV0⟩

def demoEntryA (t : ℚ) : PosEntry := ⟨"SAT-A", "station", demoV0, ⟨0, -6371⟩, t⟩

def demoEntryB (t : ℚ) : PosEntry := ⟨"SAT-B", "unknown", demoV0, ⟨0, -6371⟩, t⟩

theorem pairsIdx_two : pairsIdx 2 = [(0, 1)] := rfl

theorem pairsIdx_three : pairsIdx 3 = [(0, 1), (0, 2), (1, 2)] := rfl

theorem stepConjunctions_pair (thr st ct : ℚ) (pa pb : PosEntry) :
    stepConjunctions thr st ct [pa, pb] =
      if sqrtOffLt (calculate_distance pa.position pb.position) thr
      then [mkConjunction st ct pa pb] else [] := by
  have hlen : ([pa, pb] : List PosEntry).length = 2 := rfl
  unfold stepConjunctions
  rw [hlen, pairsIdx_two]
  by_cases h : sqrtOffLt (calculate_distance pa.position pb.position) thr = true
  · simp [List.filterMap_cons, h]
  · simp only [Bool.not_eq_true] at h
    simp [List.filterMap_cons, h]

theorem stepConjunctions_triple (thr st ct : ℚ) (pa pb pc : PosEntry) :
    stepConjunctions thr st ct [pa, pb, pc] =
      (if sqrtOffLt (calculate_distance pa.position pb.position) thr
        then [mkConjunction st ct pa pb] else []) ++
      (if sqrtOffLt (calculate_distance pa.position pc.position) thr
        then [mkConjunction st ct pa pc] else []) ++
      (if sqrtOffLt (calculate_distance pb.position pc.position) thr
        then [mkConjunction st ct pb pc] else []) := by
  have hlen : ([pa, pb, pc] : List PosEntry).length = 3 := rfl
  unfold stepConjunctions
  rw [hlen, pairsIdx_three]
  by_cases h1 : sqrtOffLt (calculate_distance pa.position pb.position) thr = true <;>
    by_cases h2 : sqrtOffLt (calculate_distance pa.position pc.position) thr = true <;>
    by_cases h3 : sqrtOffLt (calculate_distance pb.position pc.position) thr = true <;>
    simp_all [List.filterMap_cons]

theorem scanConjunctions_one (sats : List Satellite) (now thr step : ℚ) :
    scanConjunctions sats now thr step 1 =
      stepConjunctions thr now now (stepPositions sats now) := by
  unfold scanConjunctions
  rw [show List.range 1 = [0] from rfl]
  simp

theorem scanConjunctions_two (sats : List Satellite) (now thr step : ℚ) :
    scanConjunctions sats now thr step 2 =
      stepConjunctions thr now now (stepPositions sats now) ++
      stepConjunctions thr now (now + step) (stepPositions sats (now + step)) := by
  unfold scanConjunctions
  rw [show List.range 2 = [0, 1] from rfl]
  simp

theorem gcp_demoA (t : ℚ) :
    get_current_position demoA t =
      Except.ok (some ⟨demoV0, demoV0, ⟨0, -6371⟩, t⟩) := by
  have h : get_current_position demoA t =
      Except.ok (some ⟨demoV0, demoV0,
        ⟨(0 : ℚ) ^ 2 + (0 : ℚ) ^ 2 + (0 : ℚ) ^ 2, -EARTH_RADIUS_KM⟩, t⟩) := rfl
  rw [h]
  norm_num [EARTH_RADIUS_KM]

theorem gcp_demoB (t : ℚ) :
    get_current_position demoB t =
      Except.ok (some ⟨demoV0, demoV0, ⟨0, -6371⟩, t⟩) := by
  have h : get_current_position demoB t =
      Except.ok (some ⟨demoV0, demoV0,
        ⟨(0 : ℚ) ^ 2 + (0 : ℚ) ^ 2 + (0 : ℚ) ^ 2, -EARTH_RADIUS_KM⟩, t⟩) := rfl
  rw [h]
  norm_num [EARTH_RADIUS_KM]

theorem stepPositions_demoAB (t : ℚ) :
    stepPositions [demoA, demoB] t = [demoEntryA t, demoEntryB t] := by
  simp only [stepPositions, List.filterMap_cons, List.filterMap_nil,
    gcp_demoA, gcp_demoB]
  rfl

theorem calculate_distance_self (p : Vec3) : calculate_distance p p = ⟨0, 0⟩ := by
  simp [calculate_distance]

theorem sqrtOffLt_zero_of_pos {thr : ℚ} (h : 0 < thr) :
    sqrtOffLt ⟨0, 0⟩ thr = true := by
  rw [sqrtOffLt, sqrtAddLtB_iff]
  constructor
  · simpa using le_of_lt h
  · simpa using by positivity

theorem sqrtOffLt_zero_self : sqrtOffLt ⟨0, 0⟩ 0 = false := by
  rw [sqrtOffLt]
  simp [sqrtAddLtB]

theorem pyRoundSqrt_zero_two : pyRoundSqrt ⟨0, 0⟩ 2 = 0 := by
  have h := @pyRoundSqrt_exact (0) (0) 2 (0) le_rfl (by norm_num)
  norm_num at h
  exact h

theorem pyInt_nonneg_eq {q : ℚ} (h : 0 ≤ q) : pyInt q = ⌊q⌋ := by
  unfold pyInt
  rw [if_pos h]

theorem pyInt_one : pyInt 1 = 1 := by
  rw [pyInt_nonneg_eq (by norm_num)]
  norm_num

theorem pyInt_two : pyInt 2 = 2 := by
  rw [pyInt_nonneg_eq (by norm_num)]
  norm_num

theorem gridTimes_ok (st dur step : ℚ) (h : step ≠ 0) :
    gridTimes st dur step = Except.ok
      ((List.range (pyInt (dur * 60 / step)).toNat).map
        (fun (i : ℕ) => st + (i : ℚ) * step)) := by
  unfold gridTimes pyDivSteps
  rw [if_neg h]
  rfl

/-! Claim C1. -/

/-- Claim C1, counterexample: two records with identical orbital elements
(the same propagation function), screened with `threshold_distance = 0` over
a nonempty grid (two sampled times, both propagating successfully), produce
NO conjunction events at all, because the screening comparison
`dist < threshold` is strict and `0 < 0` fails. -/
theorem c1_zero_threshold_counterexample :
    find_conjunctions [demoA, demoB] 0 0 1 30 = Except.ok [] ∧
    gridTimes 0 1 30 = Except.ok [0, 30] ∧
    stepPositions [demoA, demoB] 0 = [demoEntryA 0, demoEntryB 0] := by
  refine ⟨?_, ?_, stepPositions_demoAB 0⟩
  · rw [find_conjunctions_ok _ _ _ _ _ (by norm_num : (30 : ℚ) ≠ 0)]
    rw [show (1 : ℚ) * 60 / 30 = 2 from by norm_num, pyInt_two,
      show ((2 : ℤ)).toNat = 2 from rfl, scanConjunctions_two,
      stepPositions_demoAB 0, stepPositions_demoAB ((0 : ℚ) + 30),
      stepConjunctions_pair, stepConjunctions_pair,
      show (demoEntryA ((0 : ℚ) + 30)).position = demoV0 from rfl,
      show (demoEntryB ((0 : ℚ) + 30)).position = demoV0 from rfl,
      show (demoEntryA (0 : ℚ)).position = demoV0 from rfl,
      show (demoEntryB (0 : ℚ)).position = demoV0 from rfl,
      calculate_distance_self, sqrtOffLt_zero_self]
    simp
  · rw [gridTimes_ok _ _ _ (by norm_num : (30 : ℚ) ≠ 0)]
    rw [show (1 : ℚ) * 60 / 30 = 2 from by norm_num, pyInt_two,
      show ((2 : ℤ)).toNat = 2 from rfl,
      show List.range 2 = [0, 1] from rfl]
    norm_num

/-- Claim C1, amended: with any strictly positive threshold, screening two
records with identical orbital elements yields, at every sampled time step
at which the objects propagate successfully (success at some steps and
failure at others is allowed; identical elements propagate identically, so
success of one record at a step is success of both), a conjunction event
with stored distance 0 whose risk classification is CRITICAL with score 95.
(As stated, with `threshold_distance = 0`, the strict comparison produces
no events.) -/
theorem c1_identical_orbits_event_every_step (s1 s2 : Satellite)
    (now thr dur step : ℚ) (hsame : s1.sgp4 = s2.sgp4)
    (hthr : 0 < thr) (hstep : step ≠ 0) (evs : List Conjunction)
    (hrun : find_conjunctions [s1, s2] now thr dur step = Except.ok evs)
    (i : ℕ) (hi : i < (pyInt (dur * 60 / step)).toNat)
    (hok : ∃ p v, s1.sgp4 (now + (i : ℚ) * step) = Except.ok (0, p, v)) :
    ∃ e ∈ evs, e.object1 = s1.name ∧ e.object2 = s2.name ∧
      e.time = now + (i : ℚ) * step ∧ e.distance_km = 0 ∧
      assess_collision_risk e.distance_km =
        ("CRITICAL", 95, "Immediate collision risk") := by
  rw [find_conjunctions_ok _ _ _ _ _ hstep] at hrun
  cases hrun
  obtain ⟨p, v, heq⟩ := hok
  have heq2 : s2.sgp4 (now + (i : ℚ) * step) = Except.ok (0, p, v) := by
    rw [← hsame]
    exact heq
  have hg1 : get_current_position s1 (now + (i : ℚ) * step) =
      Except.ok (some ⟨p, v, ⟨p.x ^ 2 + p.y ^ 2 + p.z ^ 2, -EARTH_RADIUS_KM⟩,
        now + (i : ℚ) * step⟩) := by
    unfold get_current_position
    rw [heq]
    rfl
  have hg2 : get_current_position s2 (now + (i : ℚ) * step) =
      Except.ok (some ⟨p, v, ⟨p.x ^ 2 + p.y ^ 2 + p.z ^ 2, -EARTH_RADIUS_KM⟩,
        now + (i : ℚ) * step⟩) := by
    unfold get_current_position
    rw [heq2]
    rfl
  have hsp : stepPositions [s1, s2] (now + (i : ℚ) * step) =
      [⟨s1.name, s1.catalog.getD "unknown", p,
        ⟨p.x ^ 2 + p.y ^ 2 + p.z ^ 2, -EARTH_RADIUS_KM⟩, now + (i : ℚ) * step⟩,
       ⟨s2.name, s2.catalog.getD "unknown", p,
        ⟨p.x ^ 2 + p.y ^ 2 + p.z ^ 2, -EARTH_RADIUS_KM⟩, now + (i : ℚ) * step⟩] := by
    simp only [stepPositions, List.filterMap_cons, List.filterMap_nil, hg1, hg2]
  have hlt : sqrtOffLt (calculate_distance p p) thr = true := by
    rw [calculate_distance_self]
    exact sqrtOffLt_zero_of_pos hthr
  have hd : pyRoundSqrt (calculate_distance p p) 2 = 0 := by
    rw [calculate_distance_self]
    exact pyRoundSqrt_zero_two
  refine ⟨mkConjunction now (now + (i : ℚ) * step)
      ⟨s1.name, s1.catalog.getD "unknown", p,
        ⟨p.x ^ 2 + p.y ^ 2 + p.z ^ 2, -EARTH_RADIUS_KM⟩, now + (i : ℚ) * step⟩
      ⟨s2.name, s2.catalog.getD "unknown", p,
        ⟨p.x ^ 2 + p.y ^ 2 + p.z ^ 2, -EARTH_RADIUS_KM⟩, now + (i : ℚ) * step⟩,
    ?_, rfl, rfl, rfl, hd, ?_⟩
  · apply (List.perm_insertionSort byDistance _).mem_iff.mpr
    apply mem_scanConjunctions.mpr
    refine ⟨i, hi, ?_⟩
    apply mem_stepConjunctions.mpr
    exact ⟨0, 1,
      ⟨s1.name, s1.catalog.getD "unknown", p,
        ⟨p.x ^ 2 + p.y ^ 2 + p.z ^ 2, -EARTH_RADIUS_KM⟩, now + (i : ℚ) * step⟩,
      ⟨s2.name, s2.catalog.getD "unknown", p,
        ⟨p.x ^ 2 + p.y ^ 2 + p.z ^ 2, -EARTH_RADIUS_KM⟩, now + (i : ℚ) * step⟩,
      Nat.zero_lt_one, by rw [hsp]; rfl, by rw [hsp]; rfl, hlt, rfl⟩
  · show assess_collision_risk (pyRoundSqrt (calculate_distance p p) 2) = _
    rw [hd]
    norm_num [assess_collision_risk]

/-- Run used by several witnesses: the two identical demo records screened
with threshold 50 over a one-step grid produce exactly one event, at
distance 0. -/
theorem find_demoAB_50 :
    find_conjunctions [demoA, demoB] 0 50 1 60 =
      Except.ok [mkConjunction 0 0 (demoEntryA 0) (demoEntryB 0)] := by
  rw [find_conjunctions_ok _ _ _ _ _ (by norm_num : (60 : ℚ) ≠ 0)]
  rw [show (1 : ℚ) * 60 / 60 = 1 from by norm_num, pyInt_one,
    show ((1 : ℤ)).toNat = 1 from rfl, scanConjunctions_one,
    stepPositions_demoAB, stepConjunctions_pair,
    show (demoEntryA (0 : ℚ)).position = demoV0 from rfl,
    show (demoEntryB (0 : ℚ)).position = demoV0 from rfl,
    calculate_distance_self, sqrtOffLt_zero_of_pos (by norm_num : (0 : ℚ) < 50)]
  rfl

/-- Witness for the amended claim C1 at a concrete input. -/
theorem c1_identical_orbits_event_every_step_witness :
    ∃ e ∈ [mkConjunction 0 0 (demoEntryA 0) (demoEntryB 0)],
      e.object1 = demoA.name ∧ e.object2 = demoB.name ∧
      e.time = 0 + ((0 : ℕ) : ℚ) * 60 ∧ e.distance_km = 0 ∧
      assess_collision_risk e.distance_km =
        ("CRITICAL", 95, "Immediate collision risk") :=
  c1_identical_orbits_event_every_step demoA demoB 0 50 1 60 rfl
    (by norm_num) (by norm_num) _ find_demoAB_50 0
    (by rw [show (1 : ℚ) * 60 / 60 = 1 from by norm_num, pyInt_one]; norm_num)
    ⟨demoV0, demoV0, rfl⟩

/-! Claim C2. -/

/-- Evaluation helper: when the scaled value lies strictly between the half
point and the next integer, Python rounding rounds up. -/
theorem pyRoundSqrt_eval_up {s c : ℚ} (d : ℕ) {m : ℤ}
    (hm : floorSqrtAdd (((10 : ℚ) ^ d) ^ 2 * s) ((10 : ℚ) ^ d * c) = m)
    (hb : sqrtAddLtB (((10 : ℚ) ^ d) ^ 2 * s) ((10 : ℚ) ^ d * c)
      ((m : ℚ) + 1 / 2) = false)
    (hbe : sqrtAddEqB (((10 : ℚ) ^ d) ^ 2 * s) ((10 : ℚ) ^ d * c)
      ((m : ℚ) + 1 / 2) = false) :
    pyRoundSqrt ⟨s, c⟩ d = ((m + 1 : ℤ) : ℚ) / (10 : ℚ) ^ d := by
  unfold pyRoundSqrt roundHalfEvenSqrtAdd
  dsimp only
  rw [hm, hb, hbe]
  simp

/-- Claim C2, amended: every emitted event comes from a pair whose true
(unrounded) distance is strictly below the threshold, and the STORED distance
(that value rounded to 2 decimals) is strictly below threshold + 1/200; it is
not always strictly below the threshold itself, because rounding can carry it
up to the threshold (see the counterexample). -/
theorem c2_stored_distance_bound (sats : List Satellite) (now thr dur step : ℚ)
    (evs : List Conjunction)
    (hrun : find_conjunctions sats now thr dur step = Except.ok evs) :
    ∀ e ∈ evs, e.distance_km < thr + 1 / 200 := by
  intro e he
  by_cases hstep : step = 0
  · rw [hstep] at hrun
    simp [find_conjunctions, pyDivSteps] at hrun
  · rw [find_conjunctions_ok _ _ _ _ _ hstep] at hrun
    cases hrun
    have hmem := (List.perm_insertionSort byDistance _).mem_iff.mp he
    obtain ⟨i, hi, hstep_mem⟩ := mem_scanConjunctions.mp hmem
    obtain ⟨a, b, pa, pb, hab, hpa, hpb, hltb, rfl⟩ :=
      mem_stepConjunctions.mp hstep_mem
    rw [sqrtOffLt, sqrtAddLtB_iff] at hltb
    have hoff : (calculate_distance pa.position pb.position).offset = 0 := rfl
    rw [hoff, sub_zero] at hltb
    obtain ⟨hthr0, hlt⟩ := hltb
    have hs0 : 0 ≤ (calculate_distance pa.position pb.position).radicand := by
      show (0 : ℚ) ≤ (pa.position.x - pb.position.x) ^ 2 +
        (pa.position.y - pb.position.y) ^ 2 + (pa.position.z - pb.position.z) ^ 2
      positivity
    have hre : calculate_distance pa.position pb.position =
        ⟨(calculate_distance pa.position pb.position).radicand, 0⟩ := rfl
    show pyRoundSqrt (calculate_distance pa.position pb.position) 2 < thr + 1 / 200
    rw [hre]
    exact pyRoundSqrt_two_lt hs0 hthr0 hlt

/-- The record at distance 49.996 km from the origin record. -/
def demoPC2 : Vec3 := ⟨12499 / 250, 0, 0⟩

def demoC2 : Satellite := ⟨"SAT-C", none, demoSgp4At demoPC2⟩

def demoEntryC2 (t : ℚ) : PosEntry :=
  ⟨"SAT-C", "unknown", demoPC2, ⟨156225001 / 62500, -6371⟩, t⟩

theorem gcp_demoC2 (t : ℚ) :
    get_current_position demoC2 t =
      Except.ok (some ⟨demoPC2, demoV0, ⟨156225001 / 62500, -6371⟩, t⟩) := by
  have h : get_current_position demoC2 t =
      Except.ok (some ⟨demoPC2, demoV0,
        ⟨(12499 / 250 : ℚ) ^ 2 + (0 : ℚ) ^ 2 + (0 : ℚ) ^ 2, -EARTH_RADIUS_KM⟩,
        t⟩) := rfl
  rw [h]
  norm_num [EARTH_RADIUS_KM]

theorem stepPositions_demoAC2 (t : ℚ) :
    stepPositions [demoA, demoC2] t = [demoEntryA t, demoEntryC2 t] := by
  simp only [stepPositions, List.filterMap_cons, List.filterMap_nil,
    gcp_demoA, gcp_demoC2]
  rfl

theorem calculate_distance_demoAC2 :
    calculate_distance demoV0 demoPC2 = ⟨156225001 / 62500, 0⟩ := by
  simp only [calculate_distance, demoV0, demoPC2]
  norm_num

theorem pyRoundSqrt_demoC2_distance :
    pyRoundSqrt ⟨156225001 / 62500, 0⟩ 2 = 50 := by
  have hm : floorSqrtAdd (((10 : ℚ) ^ 2) ^ 2 * (156225001 / 62500))
      ((10 : ℚ) ^ 2 * 0) = 4999 := by
    refine floorSqrtAdd_eq (by norm_num) (Or.inr (by norm_num)) (by norm_num)
      (by norm_num)
  have h := pyRoundSqrt_eval_up 2 hm
    (by rw [sqrtAddLtB]; norm_num) (by rw [sqrtAddEqB]; norm_num)
  rw [h]
  norm_num

/-- Claim C2, counterexample: with threshold 50, a pair at true distance
49.996 km passes the strict screening test, but the stored rounded distance
is exactly 50, which is NOT strictly below the configured threshold. -/
theorem c2_stored_distance_counterexample :
    find_conjunctions [demoA, demoC2] 0 50 1 60 =
      Except.ok [mkConjunction 0 0 (demoEntryA 0) (demoEntryC2 0)] ∧
    (mkConjunction 0 0 (demoEntryA 0) (demoEntryC2 0)).distance_km = 50 ∧
    ¬ ((mkConjunction 0 0 (demoEntryA 0) (demoEntryC2 0)).distance_km < 50) := by
  have hdk : (mkConjunction 0 0 (demoEntryA 0) (demoEntryC2 0)).distance_km = 50 := by
    show pyRoundSqrt (calculate_distance demoV0 demoPC2) 2 = 50
    rw [calculate_distance_demoAC2, pyRoundSqrt_demoC2_distance]
  refine ⟨?_, hdk, by rw [hdk]; norm_num⟩
  rw [find_conjunctions_ok _ _ _ _ _ (by norm_num : (60 : ℚ) ≠ 0)]
  rw [show (1 : ℚ) * 60 / 60 = 1 from by norm_num, pyInt_one,
    show ((1 : ℤ)).toNat = 1 from rfl, scanConjunctions_one,
    stepPositions_demoAC2, stepConjunctions_pair,
    show (demoEntryA (0 : ℚ)).position = demoV0 from rfl,
    show (demoEntryC2 (0 : ℚ)).position = demoPC2 from rfl,
    calculate_distance_demoAC2,
    show sqrtOffLt ⟨156225001 / 62500, 0⟩ 50 = true from by
      rw [sqrtOffLt, sqrtAddLtB_iff]; norm_num]
  rfl

/-- Witness for the amended claim C2 at a concrete input. -/
theorem c2_stored_distance_bound_witness :
    (mkConjunction 0 0 (demoEntryA 0) (demoEntryB 0)).distance_km < 50 + 1 / 200 :=
  c2_stored_distance_bound [demoA, demoB] 0 50 1 60 _ find_demoAB_50
    (mkConjunction 0 0 (demoEntryA 0) (demoEntryB 0)) (by simp)

/-! Claim C3: concrete records.  The spec example needs three events with
distances 12.3, 4.0, 4.0 at two distinct times; the tie-order counterexample
needs two runs over the same three objects in different input orders. -/

def demoP3B : Vec3 := ⟨0, 0, 4⟩

def demoP3C : Vec3 := ⟨0, 0, -123 / 10⟩

def demoB3 : Satellite := ⟨"SAT-B", none, demoSgp4At demoP3B⟩

/-- A record that propagates successfully only at time 0 (error code 1
afterwards). -/
def demoC3 : Satellite :=
  ⟨"SAT-C", none, fun t =>
    if t = 0 then Except.ok (0, demoP3C, demoV0) else Except.ok (1, demoP3C, demoV0)⟩

def demoEntryB3 (t : ℚ) : PosEntry := ⟨"SAT-B", "unknown", demoP3B, ⟨16, -6371⟩, t⟩

def demoEntryC3 : PosEntry := ⟨"SAT-C", "unknown", demoP3C, ⟨15129 / 100, -6371⟩, 0⟩

theorem pyRound_d16 : pyRoundSqrt ⟨16, 0⟩ 2 = 4 := by
  have h := @pyRoundSqrt_exact (4) (0) 2 (400) (by norm_num) (by norm_num)
  norm_num at h
  exact h

theorem pyRound_d15129 : pyRoundSqrt ⟨15129 / 100, 0⟩ 2 = 123 / 10 := by
  have h := @pyRoundSqrt_exact (123 / 10) (0) 2 (1230)
    (by norm_num) (by norm_num)
  norm_num at h
  exact h

theorem pyRound_a0 : pyRoundSqrt ⟨0, -6371⟩ 1 = -6371 := by
  have h := @pyRoundSqrt_exact (0) (-6371) 1 (-63710)
    (by norm_num) (by norm_num)
  norm_num at h
  exact h

theorem pyRound_a16 : pyRoundSqrt ⟨16, -6371⟩ 1 = -6367 := by
  have h := @pyRoundSqrt_exact (4) (-6371) 1 (-63670)
    (by norm_num) (by norm_num)
  norm_num at h
  exact h

theorem pyRound_a15129 : pyRoundSqrt ⟨15129 / 100, -6371⟩ 1 = -63587 / 10 := by
  have h := @pyRoundSqrt_exact (123 / 10) (-6371) 1 (-63587)
    (by norm_num) (by norm_num)
  norm_num at h
  rw [h]
  norm_num

def demoEvAB0 : Conjunction := ⟨"SAT-A", "SAT-B", 4, 0, 0, -6371, -6367⟩

def demoEvAB30 : Conjunction := ⟨"SAT-A", "SAT-B", 4, 30, 30, -6371, -6367⟩

def demoEvAC0 : Conjunction := ⟨"SAT-A", "SAT-C", 123 / 10, 0, 0, -6371, -63587 / 10⟩

theorem gcp_demoB3 (t : ℚ) :
    get_current_position demoB3 t =
      Except.ok (some ⟨demoP3B, demoV0, ⟨16, -6371⟩, t⟩) := by
  have h : get_current_position demoB3 t =
      Except.ok (some ⟨demoP3B, demoV0,
        ⟨(0 : ℚ) ^ 2 + (0 : ℚ) ^ 2 + (4 : ℚ) ^ 2, -EARTH_RADIUS_KM⟩, t⟩) := rfl
  rw [h]
  norm_num [EARTH_RADIUS_KM]

theorem gcp_demoC3_zero :
    get_current_position demoC3 0 =
      Except.ok (some ⟨demoP3C, demoV0, ⟨15129 / 100, -6371⟩, 0⟩) := by
  have hs : demoC3.sgp4 0 = Except.ok (0, demoP3C, demoV0) := by
    simp [demoC3]
  have h : get_current_position demoC3 0 =
      Except.ok (some ⟨demoP3C, demoV0,
        ⟨(0 : ℚ) ^ 2 + (0 : ℚ) ^ 2 + (-123 / 10 : ℚ) ^ 2, -EARTH_RADIUS_KM⟩, 0⟩) := by
    unfold get_current_position
    rw [hs]
    rfl
  rw [h]
  norm_num [EARTH_RADIUS_KM]

theorem gcp_demoC3_thirty :
    get_current_position demoC3 ((0 : ℚ) + 30) = Except.ok none := by
  have hs : demoC3.sgp4 ((0 : ℚ) + 30) = Except.ok (1, demoP3C, demoV0) := by
    simp [demoC3]
  unfold get_current_position
  rw [hs]
  rfl

theorem stepPositions_demo3_zero :
    stepPositions [demoA, demoB3, demoC3] 0 =
      [demoEntryA 0, demoEntryB3 0, demoEntryC3] := by
  simp only [stepPositions, List.filterMap_cons, List.filterMap_nil,
    gcp_demoA, gcp_demoB3, gcp_demoC3_zero]
  rfl

theorem stepPositions_demo3_thirty :
    stepPositions [demoA, demoB3, demoC3] ((0 : ℚ) + 30) =
      [demoEntryA ((0 : ℚ) + 30), demoEntryB3 ((0 : ℚ) + 30)] := by
  simp only [stepPositions, List.filterMap_cons, List.filterMap_nil,
    gcp_demoA, gcp_demoB3, gcp_demoC3_thirty]
  rfl

theorem cd_AB3 : calculate_distance demoV0 demoP3B = ⟨16, 0⟩ := by
  simp only [calculate_distance, demoV0, demoP3B]
  norm_num

theorem cd_AC3 : calculate_distance demoV0 demoP3C = ⟨15129 / 100, 0⟩ := by
  simp only [calculate_distance, demoV0, demoP3C]
  norm_num

theorem cd_BC3 : calculate_distance demoP3B demoP3C = ⟨26569 / 100, 0⟩ := by
  simp only [calculate_distance, demoP3B, demoP3C]
  norm_num

theorem mk_demo3_AB0 :
    mkConjunction 0 0 (demoEntryA 0) (demoEntryB3 0) = demoEvAB0 := by
  unfold mkConjunction demoEvAB0
  rw [show (demoEntryA (0 : ℚ)).position = demoV0 from rfl,
    show (demoEntryB3 (0 : ℚ)).position = demoP3B from rfl, cd_AB3,
    show (demoEntryA (0 : ℚ)).altitude_km = ⟨0, -6371⟩ from rfl,
    show (demoEntryB3 (0 : ℚ)).altitude_km = ⟨16, -6371⟩ from rfl,
    pyRound_d16, pyRound_a0, pyRound_a16]
  norm_num
  exact ⟨rfl, rfl⟩

theorem mk_demo3_AB30 :
    mkConjunction 0 ((0 : ℚ) + 30) (demoEntryA ((0 : ℚ) + 30))
      (demoEntryB3 ((0 : ℚ) + 30)) = demoEvAB30 := by
  unfold mkConjunction demoEvAB30
  rw [show (demoEntryA ((0 : ℚ) + 30)).position = demoV0 from rfl,
    show (demoEntryB3 ((0 : ℚ) + 30)).position = demoP3B from rfl, cd_AB3,
    show (demoEntryA ((0 : ℚ) + 30)).altitude_km = ⟨0, -6371⟩ from rfl,
    show (demoEntryB3 ((0 : ℚ) + 30)).altitude_km = ⟨16, -6371⟩ from rfl,
    pyRound_d16, pyRound_a0, pyRound_a16]
  norm_num
  exact ⟨rfl, rfl⟩

theorem mk_demo3_AC0 :
    mkConjunction 0 0 (demoEntryA 0) demoEntryC3 = demoEvAC0 := by
  unfold mkConjunction demoEvAC0
  rw [show (demoEntryA (0 : ℚ)).position = demoV0 from rfl,
    show demoEntryC3.position = demoP3C from rfl, cd_AC3,
    show (demoEntryA (0 : ℚ)).altitude_km = ⟨0, -6371⟩ from rfl,
    show demoEntryC3.altitude_km = ⟨15129 / 100, -6371⟩ from rfl,
    pyRound_d15129, pyRound_a0, pyRound_a15129]
  norm_num
  exact ⟨rfl, rfl⟩

/-- The spec ordering example: three events at distances 12.3, 4.0, 4.0 over
two distinct times come out as the earlier 4.0, then the later 4.0, then
12.3 (stable sort on the rounded distance). -/
theorem find_demo3_run :
    find_conjunctions [demoA, demoB3, demoC3] 0 15 1 30 =
      Except.ok [demoEvAB0, demoEvAB30, demoEvAC0] := by
  rw [find_conjunctions_ok _ _ _ _ _ (by norm_num : (30 : ℚ) ≠ 0)]
  rw [show (1 : ℚ) * 60 / 30 = 2 from by norm_num, pyInt_two,
    show ((2 : ℤ)).toNat = 2 from rfl, scanConjunctions_two,
    stepPositions_demo3_zero, stepPositions_demo3_thirty,
    stepConjunctions_triple, stepConjunctions_pair,
    show (demoEntryA (0 : ℚ)).position = demoV0 from rfl,
    show (demoEntryB3 (0 : ℚ)).position = demoP3B from rfl,
    show demoEntryC3.position = demoP3C from rfl,
    show (demoEntryA ((0 : ℚ) + 30)).position = demoV0 from rfl,
    show (demoEntryB3 ((0 : ℚ) + 30)).position = demoP3B from rfl,
    cd_AB3, cd_AC3, cd_BC3,
    show sqrtOffLt ⟨16, 0⟩ 15 = true from by
      rw [sqrtOffLt, sqrtAddLtB]; norm_num,
    show sqrtOffLt ⟨15129 / 100, 0⟩ 15 = true from by
      rw [sqrtOffLt, sqrtAddLtB]; norm_num,
    show sqrtOffLt ⟨26569 / 100, 0⟩ 15 = false from by
      rw [sqrtOffLt, sqrtAddLtB]; norm_num,
    mk_demo3_AB0, mk_demo3_AB30, mk_demo3_AC0]
  simp only [if_true, if_false, List.append_nil, List.nil_append,
    List.cons_append, List.singleton_append]
  show Except.ok (List.insertionSort byDistance [demoEvAB0, demoEvAC0, demoEvAB30]) = _
  norm_num [List.insertionSort, List.orderedInsert, byDistance,
    demoEvAB0, demoEvAB30, demoEvAC0]

def demoP6 : Vec3 := ⟨6, 0, 0⟩

def demoP34 : Vec3 := ⟨3, 4, 0⟩

def demoB6 : Satellite := ⟨"SAT-B", none, demoSgp4At demoP6⟩

def demoC34 : Satellite := ⟨"SAT-C", none, demoSgp4At demoP34⟩

def demoEntryB6 (t : ℚ) : PosEntry := ⟨"SAT-B", "unknown", demoP6, ⟨36, -6371⟩, t⟩

def demoEntryC34 (t : ℚ) : PosEntry := ⟨"SAT-C", "unknown", demoP34, ⟨25, -6371⟩, t⟩

theorem gcp_demoB6 (t : ℚ) :
    get_current_position demoB6 t =
      Except.ok (some ⟨demoP6, demoV0, ⟨36, -6371⟩, t⟩) := by
  have h : get_current_position demoB6 t =
      Except.ok (some ⟨demoP6, demoV0,
        ⟨(6 : ℚ) ^ 2 + (0 : ℚ) ^ 2 + (0 : ℚ) ^ 2, -EARTH_RADIUS_KM⟩, t⟩) := rfl
  rw [h]
  norm_num [EARTH_RADIUS_KM]

theorem gcp_demoC34 (t : ℚ) :
    get_current_position demoC34 t =
      Except.ok (some ⟨demoP34, demoV0, ⟨25, -6371⟩, t⟩) := by
  have h : get_current_position demoC34 t =
      Except.ok (some ⟨demoP34, demoV0,
        ⟨(3 : ℚ) ^ 2 + (4 : ℚ) ^ 2 + (0 : ℚ) ^ 2, -EARTH_RADIUS_KM⟩, t⟩) := rfl
  rw [h]
  norm_num [EARTH_RADIUS_KM]

theorem stepPositions_demoX1 (t : ℚ) :
    stepPositions [demoA, demoB6, demoC34] t =
      [demoEntryA t, demoEntryB6 t, demoEntryC34 t] := by
  simp only [stepPositions, List.filterMap_cons, List.filterMap_nil,
    gcp_demoA, gcp_demoB6, gcp_demoC34]
  rfl

theorem stepPositions_demoX2 (t : ℚ) :
    stepPositions [demoB6, demoA, demoC34] t =
      [demoEntryB6 t, demoEntryA t, demoEntryC34 t] := by
  simp only [stepPositions, List.filterMap_cons, List.filterMap_nil,
    gcp_demoA, gcp_demoB6, gcp_demoC34]
  rfl

theorem cd_A_B6 : calculate_distance demoV0 demoP6 = ⟨36, 0⟩ := by
  simp only [calculate_distance, demoV0, demoP6]
  norm_num

theorem cd_B6_A : calculate_distance demoP6 demoV0 = ⟨36, 0⟩ := by
  simp only [calculate_distance, demoV0, demoP6]
  norm_num

theorem cd_A_C34 : calculate_distance demoV0 demoP34 = ⟨25, 0⟩ := by
  simp only [calculate_distance, demoV0, demoP34]
  norm_num

theorem cd_B6_C34 : calculate_distance demoP6 demoP34 = ⟨25, 0⟩ := by
  simp only [calculate_distance, demoP6, demoP34]
  norm_num

theorem pyRound_d36 : pyRoundSqrt ⟨36, 0⟩ 2 = 6 := by
  have h := @pyRoundSqrt_exact (6) (0) 2 (600) (by norm_num) (by norm_num)
  norm_num at h
  exact h

theorem pyRound_d25 : pyRoundSqrt ⟨25, 0⟩ 2 = 5 := by
  have h := @pyRoundSqrt_exact (5) (0) 2 (500) (by norm_num) (by norm_num)
  norm_num at h
  exact h

theorem pyRound_a36 : pyRoundSqrt ⟨36, -6371⟩ 1 = -6365 := by
  have h := @pyRoundSqrt_exact (6) (-6371) 1 (-63650)
    (by norm_num) (by norm_num)
  norm_num at h
  exact h

theorem pyRound_a25 : pyRoundSqrt ⟨25, -6371⟩ 1 = -6366 := by
  have h := @pyRoundSqrt_exact (5) (-6371) 1 (-63660)
    (by norm_num) (by norm_num)
  norm_num at h
  exact h

def demoEvXAB : Conjunction := ⟨"SAT-A", "SAT-B", 6, 0, 0, -6371, -6365⟩

def demoEvXAC : Conjunction := ⟨"SAT-A", "SAT-C", 5, 0, 0, -6371, -6366⟩

def demoEvXBC : Conjunction := ⟨"SAT-B", "SAT-C", 5, 0, 0, -6365, -6366⟩

def demoEvXBA : Conjunction := ⟨"SAT-B", "SAT-A", 6, 0, 0, -6365, -6371⟩

theorem mk_demoX_AB :
    mkConjunction 0 0 (demoEntryA 0) (demoEntryB6 0) = demoEvXAB := by
  unfold mkConjunction demoEvXAB
  rw [show (demoEntryA (0 : ℚ)).position = demoV0 from rfl,
    show (demoEntryB6 (0 : ℚ)).position = demoP6 from rfl, cd_A_B6,
    show (demoEntryA (0 : ℚ)).altitude_km = ⟨0, -6371⟩ from rfl,
    show (demoEntryB6 (0 : ℚ)).altitude_km = ⟨36, -6371⟩ from rfl,
    pyRound_d36, pyRound_a0, pyRound_a36]
  norm_num
  exact ⟨rfl, rfl⟩

theorem mk_demoX_AC :
    mkConjunction 0 0 (demoEntryA 0) (demoEntryC34 0) = demoEvXAC := by
  unfold mkConjunction demoEvXAC
  rw [show (demoEntryA (0 : ℚ)).position = demoV0 from rfl,
    show (demoEntryC34 (0 : ℚ)).position = demoP34 from rfl, cd_A_C34,
    show (demoEntryA (0 : ℚ)).altitude_km = ⟨0, -6371⟩ from rfl,
    show (demoEntryC34 (0 : ℚ)).altitude_km = ⟨25, -6371⟩ from rfl,
    pyRound_d25, pyRound_a0, pyRound_a25]
  norm_num
  exact ⟨rfl, rfl⟩

theorem mk_demoX_BC :
    mkConjunction 0 0 (demoEntryB6 0) (demoEntryC34 0) = demoEvXBC := by
  unfold mkConjunction demoEvXBC
  rw [show (demoEntryB6 (0 : ℚ)).position = demoP6 from rfl,
    show (demoEntryC34 (0 : ℚ)).position = demoP34 from rfl, cd_B6_C34,
    show (demoEntryB6 (0 : ℚ)).altitude_km = ⟨36, -6371⟩ from rfl,
    show (demoEntryC34 (0 : ℚ)).altitude_km = ⟨25, -6371⟩ from rfl,
    pyRound_d25, pyRound_a36, pyRound_a25]
  norm_num
  exact ⟨rfl, rfl⟩

theorem mk_demoX_BA :
    mkConjunction 0 0 (demoEntryB6 0) (demoEntryA 0) = demoEvXBA := by
  unfold mkConjunction demoEvXBA
  rw [show (demoEntryB6 (0 : ℚ)).position = demoP6 from rfl,
    show (demoEntryA (0 : ℚ)).position = demoV0 from rfl, cd_B6_A,
    show (demoEntryB6 (0 : ℚ)).altitude_km = ⟨36, -6371⟩ from rfl,
    show (demoEntryA (0 : ℚ)).altitude_km = ⟨0, -6371⟩ from rfl,
    pyRound_d36, pyRound_a0, pyRound_a36]
  norm_num
  exact ⟨rfl, rfl⟩

theorem find_demoX_run1 :
    find_conjunctions [demoA, demoB6, demoC34] 0 10 1 60 =
      Except.ok [demoEvXAC, demoEvXBC, demoEvXAB] := by
  rw [find_conjunctions_ok _ _ _ _ _ (by norm_num : (60 : ℚ) ≠ 0)]
  rw [show (1 : ℚ) * 60 / 60 = 1 from by norm_num, pyInt_one,
    show ((1 : ℤ)).toNat = 1 from rfl, scanConjunctions_one,
    stepPositions_demoX1, stepConjunctions_triple,
    show (demoEntryA (0 : ℚ)).position = demoV0 from rfl,
    show (demoEntryB6 (0 : ℚ)).position = demoP6 from rfl,
    show (demoEntryC34 (0 : ℚ)).position = demoP34 from rfl,
    cd_A_B6, cd_A_C34, cd_B6_C34,
    show sqrtOffLt ⟨36, 0⟩ 10 = true from by
      rw [sqrtOffLt, sqrtAddLtB]; norm_num,
    show sqrtOffLt ⟨25, 0⟩ 10 = true from by
      rw [sqrtOffLt, sqrtAddLtB]; norm_num,
    mk_demoX_AB, mk_demoX_AC, mk_demoX_BC]
  simp only [if_true, List.cons_append, List.singleton_append, List.nil_append]
  show Except.ok (List.insertionSort byDistance [demoEvXAB, demoEvXAC, demoEvXBC]) = _
  norm_num [List.insertionSort, List.orderedInsert, byDistance,
    demoEvXAB, demoEvXAC, demoEvXBC]

theorem find_demoX_run2 :
    find_conjunctions [demoB6, demoA, demoC34] 0 10 1 60 =
      Except.ok [demoEvXBC, demoEvXAC, demoEvXBA] := by
  rw [find_conjunctions_ok _ _ _ _ _ (by norm_num : (60 : ℚ) ≠ 0)]
  rw [show (1 : ℚ) * 60 / 60 = 1 from by norm_num, pyInt_one,
    show ((1 : ℤ)).toNat = 1 from rfl, scanConjunctions_one,
    stepPositions_demoX2, stepConjunctions_triple,
    show (demoEntryA (0 : ℚ)).position = demoV0 from rfl,
    show (demoEntryB6 (0 : ℚ)).position = demoP6 from rfl,
    show (demoEntryC34 (0 : ℚ)).position = demoP34 from rfl,
    cd_B6_A, cd_A_C34, cd_B6_C34,
    show sqrtOffLt ⟨36, 0⟩ 10 = true from by
      rw [sqrtOffLt, sqrtAddLtB]; norm_num,
    show sqrtOffLt ⟨25, 0⟩ 10 = true from by
      rw [sqrtOffLt, sqrtAddLtB]; norm_num,
    mk_demoX_BA, mk_demoX_AC, mk_demoX_BC]
  simp only [if_true, List.cons_append, List.singleton_append, List.nil_append]
  show Except.ok (List.insertionSort byDistance [demoEvXBA, demoEvXBC, demoEvXAC]) = _
  norm_num [List.insertionSort, List.orderedInsert, byDistance,
    demoEvXBA, demoEvXBC, demoEvXAC]

/-- Claim C3, counterexample to the lexical tie-break: the same three objects
screened in two different input orders produce the same three events (same
distances and times), but the two tied events — pair (SAT-A, SAT-C) and pair
(SAT-B, SAT-C), both at distance 5 and time 0 — appear in OPPOSITE orders in
the two outputs.  No fixed (lexical or otherwise) order on the participant
identities breaks ties: the stable sort keeps the generation order, which
depends on the input order of the records. -/
theorem c3_lexical_tie_break_counterexample :
    find_conjunctions [demoA, demoB6, demoC34] 0 10 1 60 =
      Except.ok [demoEvXAC, demoEvXBC, demoEvXAB] ∧
    find_conjunctions [demoB6, demoA, demoC34] 0 10 1 60 =
      Except.ok [demoEvXBC, demoEvXAC, demoEvXBA] ∧
    demoEvXAC.distance_km = demoEvXBC.distance_km ∧
    demoEvXAC.time = demoEvXBC.time ∧
    demoEvXAC.object1 = "SAT-A" ∧ demoEvXAC.object2 = "SAT-C" ∧
    demoEvXBC.object1 = "SAT-B" ∧ demoEvXBC.object2 = "SAT-C" :=
  ⟨find_demoX_run1, find_demoX_run2, rfl, rfl, rfl, rfl, rfl, rfl⟩

/-- Claim C3, amended: the output sequence is always totally ordered by
ascending stored (rounded) distance, and the spec's concrete example holds:
distances [12.3, 4.0, 4.0] over two distinct times come out as
[4.0 (earlier time), 4.0 (later time), 12.3].  Ties are kept in generation
order (ascending time step, then input pair order) by the stable sort — not
in a fixed lexical order of the participant identities. -/
theorem c3_output_sorted_by_distance (sats : List Satellite)
    (now thr dur step : ℚ) (evs : List Conjunction)
    (hrun : find_conjunctions sats now thr dur step = Except.ok evs) :
    List.Sorted byDistance evs ∧
    find_conjunctions [demoA, demoB3, demoC3] 0 15 1 30 =
      Except.ok [demoEvAB0, demoEvAB30, demoEvAC0] ∧
    demoEvAB0.distance_km = 4 ∧ demoEvAB30.distance_km = 4 ∧
    demoEvAC0.distance_km = 123 / 10 ∧
    demoEvAB0.time = 0 ∧ demoEvAB30.time = 30 ∧ demoEvAC0.time = 0 := by
  refine ⟨?_, find_demo3_run, rfl, rfl, rfl, rfl, rfl, rfl⟩
  by_cases hstep : step = 0
  · rw [hstep] at hrun
    simp [find_conjunctions, pyDivSteps] at hrun
  · rw [find_conjunctions_ok _ _ _ _ _ hstep] at hrun
    cases hrun
    exact List.sorted_insertionSort byDistance _

/-- Witness for the amended claim C3 at a concrete input. -/
theorem c3_output_sorted_by_distance_witness :
    List.Sorted byDistance [mkConjunction 0 0 (demoEntryA 0) (demoEntryB 0)] ∧
    find_conjunctions [demoA, demoB3, demoC3] 0 15 1 30 =
      Except.ok [demoEvAB0, demoEvAB30, demoEvAC0] ∧
    demoEvAB0.distance_km = 4 ∧ demoEvAB30.distance_km = 4 ∧
    demoEvAC0.distance_km = 123 / 10 ∧
    demoEvAB0.time = 0 ∧ demoEvAB30.time = 30 ∧ demoEvAC0.time = 0 :=
  c3_output_sorted_by_distance [demoA, demoB] 0 50 1 60 _ find_demoAB_50

/-! Claims C4 and C5. -/

/-- A record with an everywhere-successful propagation function yields a
trajectory sampled exactly on the shared time grid. -/
theorem propagate_satellite_ok (sat : Satellite) (st dur step : ℚ)
    (hstep : step ≠ 0)
    (hok : ∀ t, ∃ p v, sat.sgp4 t = Except.ok (0, p, v)) :
    ∃ tr : Trajectory, propagate_satellite sat st dur step = Except.ok tr ∧
      tr.times = (List.range (pyInt (dur * 60 / step)).toNat).map
        (fun (i : ℕ) => st + (i : ℚ) * step) ∧
      tr.name = sat.name := by
  choose pf vf hpf using hok
  unfold propagate_satellite pyDivSteps
  rw [if_neg hstep]
  simp only [except_bind_ok]
  rw [mapM_ok_of_forall _
    (fun i : ℕ => some (pf (st + (i : ℚ) * step), st + (i : ℚ) * step)) _
    (fun i _ => by rw [hpf (st + (i : ℚ) * step)]; rfl)]
  refine ⟨⟨sat.name, sat.catalog.getD "unknown", _, _⟩, rfl, ?_, rfl⟩
  show (((List.range (pyInt (dur * 60 / step)).toNat).map
      (fun i : ℕ => some (pf (st + (i : ℚ) * step), st + (i : ℚ) * step))).filterMap
        id).map Prod.snd = _
  rw [List.filterMap_map]
  rw [show (id ∘ fun i : ℕ =>
      some (pf (st + (i : ℚ) * step), st + (i : ℚ) * step)) =
      (some ∘ fun i : ℕ => (pf (st + (i : ℚ) * step), st + (i : ℚ) * step)) from rfl]
  rw [List.filterMap_eq_map, List.map_map]
  rfl

/-- Claim C4, amended: the shared time grid has exactly
FLOOR(duration / step_interval) evenly spaced times `t_i = start + i * step`
(the source truncates with `int(...)`, it does not take a ceiling), and both
the trajectory sampler and the conjunction screener run over exactly this
grid. -/
theorem c4_time_grid_floor (st dur step : ℚ) (hd : 0 < dur) (hs : 0 < step) :
    ∃ ts : List ℚ,
      gridTimes st dur step = Except.ok ts ∧
      ts.length = (⌊dur * 60 / step⌋).toNat ∧
      (∀ i : ℕ, i < ts.length → ts[i]? = some (st + (i : ℚ) * step)) ∧
      (∀ sat : Satellite, (∀ t, ∃ p v, sat.sgp4 t = Except.ok (0, p, v)) →
        ∃ tr : Trajectory,
          propagate_satellite sat st dur step = Except.ok tr ∧ tr.times = ts) ∧
      (∀ (sats : List Satellite) (thr : ℚ),
        find_conjunctions sats st thr dur step = Except.ok
          (List.insertionSort byDistance (ts.flatMap (fun t =>
            stepConjunctions thr st t (stepPositions sats t))))) := by
  have hq : (0 : ℚ) ≤ dur * 60 / step := by positivity
  refine ⟨(List.range (pyInt (dur * 60 / step)).toNat).map
      (fun (i : ℕ) => st + (i : ℚ) * step),
    gridTimes_ok st dur step (ne_of_gt hs), ?_, ?_, ?_, ?_⟩
  · rw [List.length_map, List.length_range, pyInt_nonneg_eq hq]
  · intro i hi
    rw [List.length_map, List.length_range] at hi
    rw [List.getElem?_map, List.getElem?_range hi]
    rfl
  · intro sat hok
    obtain ⟨tr, h1, h2, _⟩ := propagate_satellite_ok sat st dur step
      (ne_of_gt hs) hok
    exact ⟨tr, h1, h2⟩
  · intro sats thr
    rw [find_conjunctions_ok _ _ _ _ _ (ne_of_gt hs)]
    rw [List.flatMap_map]
    rfl

/-- Witness for the amended claim C4 at a concrete input. -/
theorem c4_time_grid_floor_witness :
    ∃ ts : List ℚ,
      gridTimes 0 1 30 = Except.ok ts ∧
      ts.length = (⌊(1 : ℚ) * 60 / 30⌋).toNat ∧
      (∀ i : ℕ, i < ts.length → ts[i]? = some (0 + (i : ℚ) * 30)) ∧
      (∀ sat : Satellite, (∀ t, ∃ p v, sat.sgp4 t = Except.ok (0, p, v)) →
        ∃ tr : Trajectory,
          propagate_satellite sat 0 1 30 = Except.ok tr ∧ tr.times = ts) ∧
      (∀ (sats : List Satellite) (thr : ℚ),
        find_conjunctions sats 0 thr 1 30 = Except.ok
          (List.insertionSort byDistance (ts.flatMap (fun t =>
            stepConjunctions thr 0 t (stepPositions sats t))))) :=
  c4_time_grid_floor 0 1 30 (by norm_num) (by norm_num)

/-- Claim C4, counterexample: with duration 1 hour and step 7 minutes the
grid holds 8 = FLOOR(60/7) times, not CEILING(60/7) = 9 as the claim
states. -/
theorem c4_grid_ceiling_counterexample :
    gridTimes 0 1 7 = Except.ok [0, 7, 14, 21, 28, 35, 42, 49] ∧
    ((8 : ℤ) ≠ ⌈(1 : ℚ) * 60 / 7⌉) := by
  constructor
  · rw [gridTimes_ok _ _ _ (by norm_num)]
    have h8 : pyInt ((1 : ℚ) * 60 / 7) = 8 := by
      rw [pyInt_nonneg_eq (by norm_num)]
      rw [show (1 : ℚ) * 60 / 7 = 60 / 7 from by norm_num]
      rw [Int.floor_eq_iff]; norm_num
    rw [h8, show ((8 : ℤ)).toNat = 8 from rfl,
      show List.range 8 = [0, 1, 2, 3, 4, 5, 6, 7] from rfl]
    norm_num
  · have h9 : ⌈(1 : ℚ) * 60 / 7⌉ = 9 := by
      rw [show (1 : ℚ) * 60 / 7 = 60 / 7 from by norm_num]
      rw [Int.ceil_eq_iff]; norm_num
    rw [h9]
    norm_num

/-- Claim C5, amended: when the step interval is nonzero and the duration
and step do not have the same strict sign (`duration * step ≤ 0`, which
covers `duration ≤ 0` with a positive step and a negative step with a
nonnegative duration), the trajectory is empty and no failure occurs.  When
the step interval is 0, the source raises ZeroDivisionError instead of
returning an empty trajectory (counterexample); and when duration and step
are both negative the quotient is positive and the trajectory is NOT empty. -/
theorem c5_degenerate_inputs_empty (sat : Satellite) (st dur step : ℚ)
    (h1 : step ≠ 0) (h2 : dur * step ≤ 0) :
    propagate_satellite sat st dur step =
      Except.ok ⟨sat.name, sat.catalog.getD "unknown", [], []⟩ := by
  have hq : dur * 60 / step ≤ 0 := by
    rcases lt_or_gt_of_ne h1 with hneg | hpos
    · refine div_nonpos_iff.mpr (Or.inl ⟨?_, le_of_lt hneg⟩)
      nlinarith
    · refine div_nonpos_iff.mpr (Or.inr ⟨?_, le_of_lt hpos⟩)
      nlinarith
  have hi : (pyInt (dur * 60 / step)).toNat = 0 := by
    unfold pyInt
    by_cases hq0 : 0 ≤ dur * 60 / step
    · rw [if_pos hq0]
      exact Int.toNat_of_nonpos (Int.floor_nonpos hq)
    · rw [if_neg hq0]
      exact Int.toNat_of_nonpos (Int.ceil_le.mpr (by exact_mod_cast hq))
  unfold propagate_satellite pyDivSteps
  rw [if_neg h1]
  simp only [except_bind_ok]
  rw [hi]
  rfl

/-- Witness for the amended claim C5 at a concrete input. -/
theorem c5_degenerate_inputs_empty_witness :
    propagate_satellite demoA 0 (-1) 10 =
      Except.ok ⟨demoA.name, demoA.catalog.getD "unknown", [], []⟩ :=
  c5_degenerate_inputs_empty demoA 0 (-1) 10 (by norm_num) (by norm_num)

/-- Claim C5, counterexample: a zero step interval makes the step count
computation divide by zero, so the call raises (models ZeroDivisionError)
instead of returning an empty trajectory; and with duration and step both
negative the truncated quotient is positive (int((-60)/(-10)) = 6), so the
returned trajectory is NOT empty either. -/
theorem c5_zero_step_raises_counterexample :
    propagate_satellite demoA 0 24 0 = Except.error () ∧
    (∃ tr : Trajectory, propagate_satellite demoA 0 (-1) (-10) = Except.ok tr ∧
      tr.times.length = 6) := by
  constructor
  · unfold propagate_satellite pyDivSteps
    rw [if_pos rfl]
    rfl
  · obtain ⟨tr, h1, h2, _⟩ := propagate_satellite_ok demoA 0 (-1) (-10)
      (by norm_num) (fun _ => ⟨demoV0, demoV0, rfl⟩)
    refine ⟨tr, h1, ?_⟩
    rw [h2]
    have h6 : pyInt ((-1 : ℚ) * 60 / (-10)) = 6 := by
      rw [show ((-1 : ℚ) * 60 / (-10)) = 6 from by norm_num,
        pyInt_nonneg_eq (by norm_num)]
      norm_num
    rw [h6, List.length_map, List.length_range]
    rfl

/-! Claims C6, C7, C8. -/

/-- Claim C6: the risk classifier is a total pure step function whose score
is monotone non-increasing as distance increases, with upper-exclusive
breakpoints: classify(0.5) = CRITICAL/95, classify(5) = ELEVATED/60 (exactly
5 is not HIGH), classify(49.999) = LOW/20, classify(50) = MINIMAL/5. -/
theorem c6_classifier_monotone_and_boundaries (d1 d2 : ℚ) (h : d1 ≤ d2) :
    (assess_collision_risk d2).2.1 ≤ (assess_collision_risk d1).2.1 ∧
    assess_collision_risk (1 / 2) = ("CRITICAL", 95, "Immediate collision risk") ∧
    assess_collision_risk 5 = ("ELEVATED", 60, "Close approach - monitor closely") ∧
    assess_collision_risk (49999 / 1000) = ("LOW", 20, "Distant approach") ∧
    assess_collision_risk 50 = ("MINIMAL", 5, "Safe distance") := by
  refine ⟨?_, by norm_num [assess_collision_risk],
    by norm_num [assess_collision_risk], by norm_num [assess_collision_risk],
    by norm_num [assess_collision_risk]⟩
  unfold assess_collision_risk
  split_ifs <;> linarith

/-- Witness for claim C6 at a concrete input. -/
theorem c6_classifier_monotone_and_boundaries_witness :
    (assess_collision_risk 1).2.1 ≤ (assess_collision_risk 0).2.1 ∧
    assess_collision_risk (1 / 2) = ("CRITICAL", 95, "Immediate collision risk") ∧
    assess_collision_risk 5 = ("ELEVATED", 60, "Close approach - monitor closely") ∧
    assess_collision_risk (49999 / 1000) = ("LOW", 20, "Distant approach") ∧
    assess_collision_risk 50 = ("MINIMAL", 5, "Safe distance") :=
  c6_classifier_monotone_and_boundaries 0 1 (by norm_num)

/-- Claim C7, counterexample: a negative distance is not rejected; the
classifier returns the CRITICAL risk tier for it. -/
theorem c7_negative_distance_counterexample :
    assess_collision_risk (-1) = ("CRITICAL", 95, "Immediate collision risk") := by
  norm_num [assess_collision_risk]

/-- Claim C7, amended: the classifier is total and never rejects an input;
every negative distance falls under the first strict comparison and is
classified CRITICAL with score 95 (a silent clamp, not a rejection).
Non-finite floats fall outside this exact-rational embedding; the negative
case already refutes the claimed rejection. -/
theorem c7_negative_distance_classified (d : ℚ) (h : d < 0) :
    assess_collision_risk d = ("CRITICAL", 95, "Immediate collision risk") := by
  unfold assess_collision_risk
  rw [if_pos (lt_trans h one_pos)]

/-- Witness for the amended claim C7 at a concrete input. -/
theorem c7_negative_distance_classified_witness :
    (-1 : ℚ) < 0 ∧
    assess_collision_risk (-1) = ("CRITICAL", 95, "Immediate collision risk") :=
  ⟨by norm_num, c7_negative_distance_classified (-1) (by norm_num)⟩

/-- Claim C8: a record whose propagation fails at every queried time (by a
raised exception or a nonzero sgp4 error code — e.g. malformed elements such
as eccentricity 1.5) never aborts the screening run: the run returns exactly
the events of the run over the remaining records, and with a nonzero step it
completes with an ok result. -/
theorem c8_failing_object_ignored (pre post : List Satellite) (bad : Satellite)
    (hbad : ∀ t, get_current_position bad t = Except.error () ∨
      get_current_position bad t = Except.ok none)
    (now thr dur step : ℚ) :
    find_conjunctions (pre ++ bad :: post) now thr dur step =
      find_conjunctions (pre ++ post) now thr dur step ∧
    (step ≠ 0 → ∃ evs,
      find_conjunctions (pre ++ post) now thr dur step = Except.ok evs) := by
  have hsp : ∀ t, stepPositions (pre ++ bad :: post) t =
      stepPositions (pre ++ post) t := by
    intro t
    rw [stepPositions_append, stepPositions_cons_fail hbad, ← stepPositions_append]
  constructor
  · by_cases hstep : step = 0
    · rw [hstep]
      simp [find_conjunctions, pyDivSteps]
    · rw [find_conjunctions_ok _ _ _ _ _ hstep,
        find_conjunctions_ok _ _ _ _ _ hstep]
      have hscan : scanConjunctions (pre ++ bad :: post) now thr step
          (pyInt (dur * 60 / step)).toNat =
          scanConjunctions (pre ++ post) now thr step
            (pyInt (dur * 60 / step)).toNat := by
        unfold scanConjunctions
        simp only [hsp]
      rw [hscan]
  · intro hstep
    exact ⟨_, find_conjunctions_ok _ _ _ _ _ hstep⟩

/-- A record whose propagation always raises (models a malformed TLE whose
parse or propagation throws). -/
def demoBad : Satellite := ⟨"SAT-BAD", none, fun _ => Except.error ()⟩

/-- Witness for claim C8 at a concrete input. -/
theorem c8_failing_object_ignored_witness :
    find_conjunctions ([demoA] ++ demoBad :: [demoB]) 0 50 1 60 =
      find_conjunctions ([demoA] ++ [demoB]) 0 50 1 60 ∧
    ((60 : ℚ) ≠ 0 → ∃ evs,
      find_conjunctions ([demoA] ++ [demoB]) 0 50 1 60 = Except.ok evs) :=
  c8_failing_object_ignored [demoA] [demoB] demoBad (fun _ => Or.inl rfl) 0 50 1 60

/-! Claims C9 and C10. -/

/-- Claim C9: at every time step the nested loops visit exactly the index
pairs `i < j`, each exactly once (the pair list characterisation plus its
Nodup property), and — when the participating records have distinct names —
the per-step events never contain both an (A, B) and a (B, A) event for the
same unordered pair. -/
theorem c9_unordered_pairs_once (thr now t : ℚ) (ps : List PosEntry)
    (hnames : (ps.map PosEntry.name).Nodup) :
    (∀ i j : ℕ, ((i, j) ∈ pairsIdx ps.length ↔ i < j ∧ j < ps.length)) ∧
    (pairsIdx ps.length).Nodup ∧
    (∀ e1 ∈ stepConjunctions thr now t ps,
     ∀ e2 ∈ stepConjunctions thr now t ps,
      ¬ (e1.object1 = e2.object2 ∧ e1.object2 = e2.object1)) := by
  refine ⟨fun i j => mem_pairsIdx, pairsIdx_nodup _, ?_⟩
  rintro e1 he1 e2 he2 ⟨hswap1, hswap2⟩
  obtain ⟨i, j, pa, pb, hij, hpi, hpj, hd1, rfl⟩ := mem_stepConjunctions.mp he1
  obtain ⟨k, l, pc, pd, hkl, hpk, hpl, hd2, rfl⟩ := mem_stepConjunctions.mp he2
  have hn1 : pa.name = pd.name := hswap1
  have hn2 : pb.name = pc.name := hswap2
  have hinj : ∀ (a b : ℕ) (px py : PosEntry), ps[a]? = some px →
      ps[b]? = some py → px.name = py.name → a = b := by
    intro a b px py hpx hpy hname
    have ha : a < ps.length := (List.getElem?_eq_some_iff.mp hpx).1
    apply @List.getElem?_inj String a b (List.map PosEntry.name ps)
      (by simpa using ha) hnames
    rw [List.getElem?_map, List.getElem?_map, hpx, hpy]
    simp [hname]
  have h1 : i = l := hinj i l pa pd hpi hpl hn1
  have h2 : j = k := hinj j k pb pc hpj hpk hn2
  omega

/-- Witness for claim C9 at a concrete input. -/
theorem c9_unordered_pairs_once_witness :
    (∀ i j : ℕ, ((i, j) ∈ pairsIdx ([demoEntryA 0, demoEntryB 0] :
        List PosEntry).length ↔
      i < j ∧ j < ([demoEntryA 0, demoEntryB 0] : List PosEntry).length)) ∧
    (pairsIdx ([demoEntryA 0, demoEntryB 0] : List PosEntry).length).Nodup ∧
    (∀ e1 ∈ stepConjunctions 50 0 0 [demoEntryA 0, demoEntryB 0],
     ∀ e2 ∈ stepConjunctions 50 0 0 [demoEntryA 0, demoEntryB 0],
      ¬ (e1.object1 = e2.object2 ∧ e1.object2 = e2.object1)) :=
  c9_unordered_pairs_once 50 0 0 [demoEntryA 0, demoEntryB 0]
    (by simp [demoEntryA, demoEntryB])

/-- Claim C10: every per-step event stores the Euclidean distance rounded to
2 decimal places (hence an integer multiple of 1/100) and each participant
altitude rounded to 1 decimal place (an integer multiple of 1/10); the final
ordering compares exactly these stored rounded distances, so two events whose
true distances round to the same 0.01 km value tie under the sort relation,
and the full output is sorted by that rounded key. -/
theorem c10_rounded_fields_sort_key (thr st ct : ℚ) (ps : List PosEntry)
    (e : Conjunction) (he : e ∈ stepConjunctions thr st ct ps) :
    (∃ (i j : ℕ) (pa pb : PosEntry), i < j ∧ ps[i]? = some pa ∧
      ps[j]? = some pb ∧ e = mkConjunction st ct pa pb ∧
      e.distance_km = pyRoundSqrt (calculate_distance pa.position pb.position) 2 ∧
      e.altitude1_km = pyRoundSqrt pa.altitude_km 1 ∧
      e.altitude2_km = pyRoundSqrt pb.altitude_km 1) ∧
    (∃ k : ℤ, e.distance_km = (k : ℚ) / 100) ∧
    (∃ k1 k2 : ℤ, e.altitude1_km = (k1 : ℚ) / 10 ∧
      e.altitude2_km = (k2 : ℚ) / 10) ∧
    (∀ f : Conjunction, e.distance_km = f.distance_km →
      byDistance e f ∧ byDistance f e) ∧
    (∀ (sats : List Satellite) (now dur step : ℚ) (evs : List Conjunction),
      find_conjunctions sats now thr dur step = Except.ok evs →
      List.Sorted byDistance evs) := by
  obtain ⟨i, j, pa, pb, hij, hpi, hpj, hd, rfl⟩ := mem_stepConjunctions.mp he
  refine ⟨⟨i, j, pa, pb, hij, hpi, hpj, rfl, rfl, rfl, rfl⟩, ?_, ?_, ?_, ?_⟩
  · refine ⟨roundHalfEvenSqrtAdd
      (((10 : ℚ) ^ 2) ^ 2 * (calculate_distance pa.position pb.position).radicand)
      ((10 : ℚ) ^ 2 * (calculate_distance pa.position pb.position).offset), ?_⟩
    show (_ : ℚ) / (10 : ℚ) ^ 2 = _ / 100
    norm_num
  · refine ⟨roundHalfEvenSqrtAdd
        (((10 : ℚ) ^ 1) ^ 2 * pa.altitude_km.radicand)
        ((10 : ℚ) ^ 1 * pa.altitude_km.offset),
      roundHalfEvenSqrtAdd
        (((10 : ℚ) ^ 1) ^ 2 * pb.altitude_km.radicand)
        ((10 : ℚ) ^ 1 * pb.altitude_km.offset), ?_, ?_⟩
    · show (_ : ℚ) / (10 : ℚ) ^ 1 = _ / 10
      norm_num
    · show (_ : ℚ) / (10 : ℚ) ^ 1 = _ / 10
      norm_num
  · intro f hf
    exact ⟨le_of_eq hf, le_of_eq hf.symm⟩
  · intro sats now dur step evs hrun
    by_cases hstep : step = 0
    · rw [hstep] at hrun
      simp [find_conjunctions, pyDivSteps] at hrun
    · rw [find_conjunctions_ok _ _ _ _ _ hstep] at hrun
      cases hrun
      exact List.sorted_insertionSort byDistance _

/-- Witness for claim C10 at a concrete input. -/
theorem c10_rounded_fields_sort_key_witness :
    (∃ (i j : ℕ) (pa pb : PosEntry), i < j ∧
      ([demoEntryA 0, demoEntryB 0] : List PosEntry)[i]? = some pa ∧
      ([demoEntryA 0, demoEntryB 0] : List PosEntry)[j]? = some pb ∧
      mkConjunction 0 0 (demoEntryA 0) (demoEntryB 0) = mkConjunction 0 0 pa pb ∧
      (mkConjunction 0 0 (demoEntryA 0) (demoEntryB 0)).distance_km =
        pyRoundSqrt (calculate_distance pa.position pb.position) 2 ∧
      (mkConjunction 0 0 (demoEntryA 0) (demoEntryB 0)).altitude1_km =
        pyRoundSqrt pa.altitude_km 1 ∧
      (mkConjunction 0 0 (demoEntryA 0) (demoEntryB 0)).altitude2_km =
        pyRoundSqrt pb.altitude_km 1) ∧
    (∃ k : ℤ, (mkConjunction 0 0 (demoEntryA 0) (demoEntryB 0)).distance_km =
      (k : ℚ) / 100) ∧
    (∃ k1 k2 : ℤ,
      (mkConjunction 0 0 (demoEntryA 0) (demoEntryB 0)).altitude1_km =
        (k1 : ℚ) / 10 ∧
      (mkConjunction 0 0 (demoEntryA 0) (demoEntryB 0)).altitude2_km =
        (k2 : ℚ) / 10) ∧
    (∀ f : Conjunction,
      (mkConjunction 0 0 (demoEntryA 0) (demoEntryB 0)).distance_km =
        f.distance_km →
      byDistance (mkConjunction 0 0 (demoEntryA 0) (demoEntryB 0)) f ∧
      byDistance f (mkConjunction 0 0 (demoEntryA 0) (demoEntryB 0))) ∧
    (∀ (sats : List Satellite) (now dur step : ℚ) (evs : List Conjunction),
      find_conjunctions sats now 50 dur step = Except.ok evs →
      List.Sorted byDistance evs) :=
  c10_rounded_fields_sort_key 50 0 0 [demoEntryA 0, demoEntryB 0]
    (mkConjunction 0 0 (demoEntryA 0) (demoEntryB 0))
    (by
      rw [stepConjunctions_pair,
        show (demoEntryA (0 : ℚ)).position = demoV0 from rfl,
        show (demoEntryB (0 : ℚ)).position = demoV0 from rfl,
        calculate_distance_self,
        sqrtOffLt_zero_of_pos (by norm_num : (0 : ℚ) < 50)]
      simp)

end SpaceDebbie
